import Mathlib

/-!
Shallow embedding of the zet-cli command framework (lib/index.mjs):
signature compilation (`parseSignature`), argv matching (`parseArgv`),
help rendering (`formatCommandHelp`) and the command registry
(`zetGroup` / `groupRegister`), together with theorems checking the
specification's claims about them.

JavaScript strings are modelled as Lean `String` / `List Char`; the
regular expressions of the source are modelled by the explicit scanning
functions below, which reproduce the deterministic leftmost-alternative
behaviour of the concrete patterns used.  JS objects used as string-keyed
maps are modelled as association lists with JS assignment semantics
(overwrite in place, insertion order preserved).
-/

-- # Character classes used by the source's regular expressions

/-- JS `\s` for the characters that can actually occur here (ASCII). -/
def isSpaceJS (c : Char) : Bool := c = ' ' || c = '\t' || c = '\n' || c = '\r'

/-- `[a-zA-Z]` -/
def isAsciiLetter (c : Char) : Bool :=
  ('a' ≤ c && c ≤ 'z') || ('A' ≤ c && c ≤ 'Z')

/-- `[0-9]` -/
def isDigitJS (c : Char) : Bool := '0' ≤ c && c ≤ '9'

/-- `\w` = `[A-Za-z0-9_]` -/
def isWordChar (c : Char) : Bool := isAsciiLetter c || isDigitJS c || c = '_'

/-- `[\w-]` -/
def isWordOrHyphen (c : Char) : Bool := isWordChar c || c = '-'

/-- `[A-Z]`, the uppercase test used by `validateOptionName` / `extractShortFlag`. -/
def isUpperAZ (c : Char) : Bool := 'A' ≤ c && c ≤ 'Z'

/-- ASCII lowering, the effect of JS `toLowerCase` on the `[\w-]` names here. -/
def lowerChar (c : Char) : Char :=
  if isUpperAZ c then Char.ofNat (c.toNat + 32) else c

/-- Lower a character list. -/
def lowerChars (l : List Char) : List Char := l.map lowerChar

/-- Lower a string (`String.toLowerCase` on the ASCII names occurring here). -/
def lowerStr (s : String) : String := String.mk (lowerChars s.toList)

/-- Greedy run of characters satisfying `p` ( `p*` at the head), returning
the run and the remainder. -/
def takeRun (p : Char → Bool) : List Char → List Char × List Char
  | [] => ([], [])
  | c :: cs =>
    if p c then
      let r := takeRun p cs
      (c :: r.1, r.2)
    else ([], c :: cs)

/-- JS `String.prototype.trim`. -/
def trimChars (l : List Char) : List Char :=
  ((l.dropWhile isSpaceJS).reverse.dropWhile isSpaceJS).reverse

/-- Split a character list at the first `'='` (JS `indexOf("=")` plus the
two `slice` calls); `none` in the second component means no `'='`. -/
def splitEqChars : List Char → List Char × Option (List Char)
  | [] => ([], none)
  | c :: cs =>
    if c = '=' then ([], some cs)
    else
      let r := splitEqChars cs
      (c :: r.1, r.2)

/-- JS `String.prototype.startsWith` (kernel-reducible form). -/
def strStartsWith (s p : String) : Bool := p.toList.isPrefixOf s.toList

/-- JS `String.prototype.slice(n)` (drop the first `n` characters). -/
def strDrop (s : String) (n : Nat) : String := String.mk (s.toList.drop n)

/-- JS `String.prototype.length` (character count; the tokens here are ASCII). -/
def strLen (s : String) : Nat := s.toList.length

/-- `token.indexOf("=")`, `token.slice(0, eqIdx)`, `token.slice(eqIdx + 1)`. -/
def splitFirstEq (s : String) : String × Option String :=
  let r := splitEqChars s.toList
  (String.mk r.1, r.2.map String.mk)

/-- JS `String.prototype.split("-")` on a character list. -/
def splitDash : List Char → List (List Char)
  | [] => [[]]
  | c :: cs =>
    let r := splitDash cs
    if c = '-' then [] :: r
    else
      match r with
      | h :: t => (c :: h) :: t
      | [] => [[c]]

-- # Tokenization: TOKEN_RE = /\{[^}]+\}|\.\.\.|[^\s{}]+/g

/-- Split at the first `'}'` (the greedy `[^}]+` followed by `\}`):
returns the content before it and the remainder after it. -/
def splitAtRBrace : List Char → Option (List Char × List Char)
  | [] => none
  | c :: cs =>
    if c = '}' then some ([], cs)
    else
      match splitAtRBrace cs with
      | some (a, b) => some (c :: a, b)
      | none => none

/-- One global scan of `TOKEN_RE`, alternatives tried leftmost-first at each
position, unmatched characters skipped.  `fuel` only bounds recursion and
is always supplied as `length + 1`, which each step strictly respects. -/
def tokenizeGo : Nat → List Char → List (List Char)
  | 0, _ => []
  | _, [] => []
  | fuel + 1, '{' :: rest =>
    match splitAtRBrace rest with
    | some (content, after) =>
      if content = [] then tokenizeGo fuel rest
      else ('{' :: (content ++ ['}'])) :: tokenizeGo fuel after
    | none => tokenizeGo fuel rest
  | fuel + 1, '.' :: '.' :: '.' :: rest => ['.', '.', '.'] :: tokenizeGo fuel rest
  | fuel + 1, c :: rest =>
    if isSpaceJS c || c = '{' || c = '}' then tokenizeGo fuel rest
    else
      let r := takeRun (fun d => !isSpaceJS d && d ≠ '{' && d ≠ '}') rest
      (c :: r.1) :: tokenizeGo fuel r.2

/-- `signature.match(TOKEN_RE)` as a token list (`[]` for a `null` result). -/
def tokenize (l : List Char) : List (List Char) := tokenizeGo (l.length + 1) l

-- # Compiled schema (the object literals built by parseSignature)

/-- An entry of `sig.args`. -/
structure ArgSpec where
  name : String
  required : Bool
  description : String
deriving DecidableEq, Repr

/-- An entry of `sig.options`. -/
structure OptionSpec where
  long : String
  short : Option String
  acceptsValue : Bool
  description : String
deriving DecidableEq, Repr

/-- The compiled signature returned by `parseSignature`. -/
structure Signature where
  name : String
  args : List ArgSpec
  options : List OptionSpec
  acceptsRest : Bool
deriving DecidableEq, Repr

/-- The fields of a `Command` that the matcher and the help renderer read:
its name, the prefix of its owning group (`none` models a `null` group,
`some ""` the root group) and its description.  The action fields
(`type` / `parts` / `callback`) play no part in the claims below. -/
structure Command where
  name : String
  group : Option String
  description : String
  signature : Signature
deriving DecidableEq, Repr

-- # Signature compilation (parseSignature and its helpers)

/-- The per-segment check of `validateOptionName`: characters after the
first must not be uppercase. -/
def segOk (seg : List Char) : Bool :=
  match seg with
  | [] => true
  | _ :: rest => rest.all (fun ch => !isUpperAZ ch)

/-- `raw.replace` with the anchored pattern dash-dash: drop one leading `--`. -/
def stripDashDash : List Char → List Char
  | '-' :: '-' :: r => r
  | l => l

/-- `validateOptionName`: uppercase letters only at the start of
hyphen-separated segments. -/
def validateOptionName (raw : List Char) : Except String Unit :=
  let name := stripDashDash raw
  if (splitDash name).all segOk then .ok ()
  else
    .error ("Invalid option name '--" ++ String.mk name ++
      "': uppercase letters are only allowed at the start of hyphen-separated segments")

/-- The loop body of `extractShortFlag`: append the segment's first
character exactly when the segment is non-empty and starts uppercase. -/
def shortStep (acc : List Char) (seg : List Char) : List Char :=
  match seg with
  | c :: _ => if isUpperAZ c then acc ++ [c] else acc
  | [] => acc

/-- The uppercase initial of a segment, if any (used to state the spec's
formulation of short-flag derivation). -/
def shortPick (seg : List Char) : Option Char :=
  match seg with
  | c :: _ => if isUpperAZ c then some c else none
  | [] => none

/-- `extractShortFlag`: the fold over hyphen-separated segments collecting
the uppercase initials, as the source writes it. -/
def extractShortFlag (name : List Char) : Option String :=
  let short := (splitDash name).foldl shortStep []
  if short = [] then none else some (String.mk ('-' :: short))

/-- Modelled from the spec: short-flag derivation as §3 words it — split the
declared name on hyphens, take the first character of each segment whose
first character is uppercase, concatenate in order, and prefix a hyphen
when non-empty (null otherwise).  Compared with `extractShortFlag` below. -/
def shortFlagSpec (name : List Char) : Option String :=
  let letters := (splitDash name).filterMap shortPick
  if letters = [] then none else some (String.mk ('-' :: letters))

/-- Does the list start with `--` (JS `inner.startsWith("--")`)? -/
def startsDashDash : List Char → Bool
  | '-' :: '-' :: _ => true
  | _ => false

/-- Trailing `([=])?` of the option pattern: does the remainder after the
name run start with `=`? -/
def eqFlagOf : List Char → Bool
  | '=' :: _ => true
  | _ => false

/-- The remainder once the optional `=` is consumed. -/
def afterEqOf : List Char → List Char
  | '=' :: t => t
  | other => other

/-- The core of the option pattern after the anchored `--`:
`([a-zA-Z][\w-]*)([=])?\s*([\s\S]*)?$` followed by `validateOptionName`,
lowering, and short-flag extraction.  `tok` is the whole braced token
(used in error messages), `nameRest` the trimmed content minus `--`. -/
def parseOptionCore (tok nameRest : List Char) : Except String OptionSpec :=
  match nameRest with
  | c :: cs =>
    if isAsciiLetter c then
      let r := takeRun isWordOrHyphen cs
      let rawName := c :: r.1
      match validateOptionName rawName with
      | .error e => .error e
      | .ok _ =>
        .ok { long := "--" ++ String.mk (lowerChars rawName),
              short := extractShortFlag rawName,
              acceptsValue := eqFlagOf r.2,
              description := String.mk (trimChars (afterEqOf r.2)) }
    else .error ("Invalid option syntax: " ++ String.mk tok)
  | [] => .error ("Invalid option syntax: " ++ String.mk tok)

/-- The option branch of `parseSignature`: the regex is anchored on `--`,
then `parseOptionCore` handles the rest. -/
def parseOptionFromTok (tok inner : List Char) : Except String OptionSpec :=
  if startsDashDash inner then parseOptionCore tok (inner.drop 2)
  else .error ("Invalid option syntax: " ++ String.mk tok)

/-- The argument branch of `parseSignature`:
`inner.match(/^([a-zA-Z]\w*)(\?)?\s*([\s\S]*)?$/)`.
Returns the name, the optional marker and the description. -/
def parseArgFromTok (tok inner : List Char) : Except String (String × Bool × String) :=
  match inner with
  | c :: cs =>
    if isAsciiLetter c then
      let r := takeRun isWordChar cs
      let argName := c :: r.1
      let optional := match r.2 with
        | '?' :: _ => true
        | _ => false
      let afterQ := match r.2 with
        | '?' :: t => t
        | other => other
      .ok (String.mk argName, optional, String.mk (trimChars afterQ))
    else .error ("Invalid argument syntax: " ++ String.mk tok)
  | [] => .error ("Invalid argument syntax: " ++ String.mk tok)

/-- The token loop of `parseSignature` (tokens after the command name),
threading the collected arguments, options, rest flag and the
`seenOptional` flag. -/
def processTokens : List (List Char) → List ArgSpec → List OptionSpec → Bool → Bool →
    Except String (List ArgSpec × List OptionSpec × Bool)
  | [], args, options, acceptsRest, _ => .ok (args, options, acceptsRest)
  | tok :: rest, args, options, acceptsRest, seenOptional =>
    if tok = ['.', '.', '.'] then
      processTokens rest args options true seenOptional
    else if tok.head? = some '{' ∧ tok.getLast? = some '}' then
      if startsDashDash (trimChars ((tok.drop 1).dropLast)) then
        match parseOptionFromTok tok (trimChars ((tok.drop 1).dropLast)) with
        | .error e => .error e
        | .ok o => processTokens rest args (options ++ [o]) acceptsRest seenOptional
      else
        match parseArgFromTok tok (trimChars ((tok.drop 1).dropLast)) with
        | .error e => .error e
        | .ok trip =>
          if ¬trip.2.1 ∧ seenOptional then
            .error ("Required argument '" ++ trip.1 ++
              "' cannot follow an optional argument")
          else
            processTokens rest
              (args ++ [{ name := trip.1, required := !trip.2.1, description := trip.2.2 }])
              options acceptsRest (seenOptional || trip.2.1)
    else
      .error ("Unexpected token '" ++ String.mk tok ++
        "' in signature — command names must be a single word")

/-- The duplicate scan over argument names, accumulating the `allNames` set. -/
def checkDupArgsAux : List ArgSpec → List String → Except String (List String)
  | [], seen => .ok seen
  | a :: as, seen =>
    if a.name ∈ seen then .error ("Duplicate argument name '" ++ a.name ++ "'")
    else checkDupArgsAux as (a.name :: seen)

/-- The duplicate scan over option long names, continuing with the same set. -/
def checkDupOptsAux : List OptionSpec → List String → Except String Unit
  | [], _ => .ok ()
  | o :: os, seen =>
    if o.long ∈ seen then .error ("Duplicate option name '" ++ o.long ++ "'")
    else checkDupOptsAux os (o.long :: seen)

/-- `parseSignature(signature)`, the signature compiler. -/
def parseSignature (signature : String) : Except String Signature :=
  match tokenize signature.toList with
  | [] => .error "Empty signature"
  | nameTok :: rest =>
    match processTokens rest [] [] false false with
    | .error e => .error e
    | .ok (args, options, acceptsRest) =>
      match checkDupArgsAux args [] with
      | .error e => .error e
      | .ok seen =>
        match checkDupOptsAux options seen with
        | .error e => .error e
        | .ok _ => .ok { name := String.mk nameTok, args, options, acceptsRest }

-- # Argv matching (parseArgv)

/-- A bound option value: `true` for a flag, a string for a value option. -/
inductive OptVal where
  | flag : OptVal
  | str : String → OptVal
deriving DecidableEq, Repr

/-- The result object of `parseArgv`: `{help: true}`, `{args, options, rest}`
or `{error, cmd}`. -/
inductive MatchResult where
  | help : MatchResult
  | ok : List (String × String) → List (String × OptVal) → List String → MatchResult
  | err : String → Command → MatchResult
deriving DecidableEq, Repr

/-- JS string-keyed object assignment `m[k] = v`: overwrite in place when
the key exists, append otherwise. -/
def insertKV {β : Type} (l : List (String × β)) (k : String) (v : β) : List (String × β) :=
  if l.any (fun p => p.1 = k) then l.map (fun p => if p.1 = k then (k, v) else p)
  else l ++ [(k, v)]

/-- JS `k in m` on a string-keyed object. -/
def hasKey {β : Type} (l : List (String × β)) (k : String) : Bool :=
  l.any (fun p => p.1 = k)

/-- JS `m[k]` lookup (the maps here never hold duplicate keys). -/
def lookupKV {β : Type} (l : List (String × β)) (k : String) : Option β :=
  (l.find? (fun p => p.1 = k)).map (fun p => p.2)

/-- The `longMap` lookup: built by `set` over the options in order, so a
later option with the same long name wins. -/
def lookupLong (options : List OptionSpec) (n : String) : Option OptionSpec :=
  options.foldl (fun acc o => if o.long = n then some o else acc) none

/-- The `shortMap` lookup: only options with a truthy `short` are entered. -/
def lookupShort (options : List OptionSpec) (t : String) : Option OptionSpec :=
  options.foldl
    (fun acc o =>
      match o.short with
      | some s => if s ≠ "" ∧ s = t then some o else acc
      | none => acc) none

/-- What the scan does with one token: stop with a result, continue after
consuming this token only (with the updated `stopParsing` flag, positional
cursor and `args` / `opts` / `rest` state), or continue after consuming this
token and the following one as an option value (only `opts` changes). -/
inductive TokAct where
  | ret : MatchResult → TokAct
  | c1 : Bool → Nat → List (String × String) → List (String × OptVal) → List String → TokAct
  | c2 : List (String × OptVal) → TokAct
deriving DecidableEq, Repr

/-- The body of the `parseArgv` scan for one token, with `ahead` the
following token when it exists (`argv[i + 1]`): the `--` stop marker, the
`--help` / `-h` short-circuit, the long-option branch (split on the first
`=`, normalize, look up; value options bind `=`-values or consume a
lookahead not starting with `-`), the short-option branch (exact lookup;
value options consume the lookahead unconditionally), and the positional
branch. -/
def classifyToken (cmd : Command) (token : String) (ahead : Option String) (stop : Bool)
    (pidx : Nat) (args : List (String × String)) (opts : List (String × OptVal))
    (rest : List String) : TokAct :=
  if stop = false ∧ token = "--" then
    .c1 true pidx args opts rest
  else if stop = false ∧ (token = "--help" ∨ token = "-h") then
    .ret .help
  else if stop = false ∧ strStartsWith token "--" = true then
    let nv := splitFirstEq token
    let normalized := "--" ++ lowerStr (strDrop nv.1 2)
    match lookupLong cmd.signature.options normalized with
    | none =>
      if cmd.signature.acceptsRest then .c1 stop pidx args opts (rest ++ [token])
      else .ret (.err ("unknown option '" ++ nv.1 ++ "'") cmd)
    | some o =>
      if o.acceptsValue then
        match nv.2 with
        | some v => .c1 stop pidx args (insertKV opts o.long (.str v)) rest
        | none =>
          match ahead with
          | some next =>
            if strStartsWith next "-" = true then
              .ret (.err ("option '" ++ o.long ++ "' requires a value") cmd)
            else .c2 (insertKV opts o.long (.str next))
          | none => .ret (.err ("option '" ++ o.long ++ "' requires a value") cmd)
      else
        match nv.2 with
        | some _ => .ret (.err ("option '" ++ o.long ++ "' does not accept a value") cmd)
        | none => .c1 stop pidx args (insertKV opts o.long .flag) rest
  else if stop = false ∧ strStartsWith token "-" = true ∧ strLen token > 1 ∧
      ¬strStartsWith token "--" = true then
    match lookupShort cmd.signature.options token with
    | none =>
      if cmd.signature.acceptsRest then .c1 stop pidx args opts (rest ++ [token])
      else .ret (.err ("unknown option '" ++ token ++ "'") cmd)
    | some o =>
      if o.acceptsValue then
        match ahead with
        | some next => .c2 (insertKV opts o.long (.str next))
        | none => .ret (.err ("option '" ++ o.long ++ "' requires a value") cmd)
      else .c1 stop pidx args (insertKV opts o.long .flag) rest
  else
    match cmd.signature.args.get? pidx with
    | some a => .c1 stop (pidx + 1) (insertKV args a.name token) opts rest
    | none =>
      if cmd.signature.acceptsRest then .c1 stop pidx args opts (rest ++ [token])
      else .ret (.err ("unexpected argument '" ++ token ++ "' for command '" ++ cmd.name ++ "'") cmd)

/-- The property names that the JS `in` operator finds on a plain object
literal through `Object.prototype`, in addition to its own keys. -/
def protoKeys : List String :=
  ["constructor", "hasOwnProperty", "isPrototypeOf", "propertyIsEnumerable",
   "toLocaleString", "toString", "valueOf",
   "__defineGetter__", "__defineSetter__", "__lookupGetter__", "__lookupSetter__",
   "__proto__"]

/-- JS `k in m` on a plain object literal: an own key, or a property
inherited from `Object.prototype` via the prototype chain. -/
def jsIn {β : Type} (l : List (String × β)) (k : String) : Bool :=
  hasKey l k || protoKeys.contains k

/-- The post-scan required-argument validation (the `name in args` test is
the JS `in`, prototype chain included) and the success result. -/
def postScan (cmd : Command) (args : List (String × String)) (opts : List (String × OptVal))
    (rest : List String) : MatchResult :=
  match cmd.signature.args.find? (fun a => a.required && !jsIn args a.name) with
  | some a => .err ("missing required argument '" ++ a.name ++ "'") cmd
  | none => .ok args opts rest

/-- The scanning loop of `parseArgv`: remaining tokens, the `stopParsing`
flag, the positional cursor, and the accumulated `args` / `opts` / `rest`.
A `.c2` classification always comes with a present lookahead, so its
remaining-input case below is unreachable and resolved like an exhausted
scan. -/
def parseArgvLoop (cmd : Command) : List String → Bool → Nat →
    List (String × String) → List (String × OptVal) → List String → MatchResult
  | [], _, _, args, opts, rest => postScan cmd args opts rest
  | token :: tks, stop, pidx, args, opts, rest =>
    match classifyToken cmd token tks.head? stop pidx args opts rest with
    | .ret r => r
    | .c1 stop2 pidx2 args2 opts2 rest2 => parseArgvLoop cmd tks stop2 pidx2 args2 opts2 rest2
    | .c2 opts2 =>
      match tks with
      | _ :: tks2 => parseArgvLoop cmd tks2 stop pidx args opts2 rest
      | [] => postScan cmd args opts2 rest

/-- `parseArgv(argv, cmd)`. -/
def parseArgv (argv : List String) (cmd : Command) : MatchResult :=
  parseArgvLoop cmd argv false 0 [] [] []

/-- The `Command` the unit tests build: `new Command(name, null, parsed)`. -/
def mkCmd (sig : Signature) : Command :=
  { name := sig.name, group := none, description := "", signature := sig }

/-- Compile a source string and wrap the schema in a test command. -/
def compileCmd (src : String) : Option Command :=
  match parseSignature src with
  | .ok sig => some (mkCmd sig)
  | .error _ => none

-- # Help rendering (formatCommandHelp)

/-- `" ".repeat(maxWidth - len + 4)`. -/
def padTo (w n : Nat) : String := String.mk (List.replicate (w - n + 4) ' ')

/-- What an options-block label appends after the long name: the `<value>`
suffix when value-accepting and the `, -X` alias when the short flag is
truthy. -/
def optionLabelTail (o : OptionSpec) : String :=
  (if o.acceptsValue then " <value>" else "") ++
    (match o.short with
     | some s => if s ≠ "" then ", " ++ s else ""
     | none => "")

/-- The label of an options-block entry. -/
def optionLabel (o : OptionSpec) : String := o.long ++ optionLabelTail o

/-- The usage line of the command help: optional group prefix (only when
truthy), command name, argument placeholders, `[args...]` when
rest-accepting, `[options]` when options exist. -/
def helpUsage (cmd : Command) : String :=
  "Usage: zet " ++
  (match cmd.group with
   | some p => if p ≠ "" then p ++ " " else ""
   | none => "") ++
  cmd.name ++
  (if cmd.signature.args.length > 0 then
    " " ++ String.intercalate " "
      (cmd.signature.args.map (fun a =>
        if a.required then "<" ++ a.name ++ ">" else "[" ++ a.name ++ "]"))
  else "") ++
  (if cmd.signature.acceptsRest then " [args...]" else "") ++
  (if cmd.signature.options.length > 0 then " [options]" else "")

/-- The description paragraph (present only when the description is truthy). -/
def helpDescLines (cmd : Command) : List String :=
  if cmd.description ≠ "" then ["", "  " ++ cmd.description] else []

/-- The maximum argument-name width for the Arguments block. -/
def argNameWidth (sig : Signature) : Nat :=
  sig.args.foldl (fun m a => if a.name.length > m then a.name.length else m) 0

/-- One line of the Arguments block: name, padding, description, and the
` (required)` suffix when applicable. -/
def argLine (w : Nat) (a : ArgSpec) : String :=
  "  " ++ a.name ++ (padTo w a.name.length ++ (a.description ++
    (if a.required then " (required)" else "")))

/-- The Arguments block (present only when arguments are declared). -/
def helpArgLines (sig : Signature) : List String :=
  if sig.args.length > 0 then
    ["", "Arguments:"] ++ sig.args.map (argLine (argNameWidth sig))
  else []

/-- The Options block entries: one per declared option, then the
synthesized `--help, -h` entry. -/
def helpOptEntries (sig : Signature) : List (String × String) :=
  sig.options.map (fun o => (optionLabel o, o.description)) ++ [("--help, -h", "Show help")]

/-- The maximum label width of the Options block. -/
def optEntriesWidth (entries : List (String × String)) : Nat :=
  entries.foldl (fun m e => if e.1.length > m then e.1.length else m) 0

/-- One line of the Options block: label, padding, description. -/
def optLine (w : Nat) (e : String × String) : String :=
  "  " ++ e.1 ++ (padTo w e.1.length ++ e.2)

/-- The Options block lines. -/
def helpOptLines (sig : Signature) : List String :=
  (helpOptEntries sig).map (optLine (optEntriesWidth (helpOptEntries sig)))

/-- `formatCommandHelp` as the list of lines it joins with newlines. -/
def formatCommandHelpLines (cmd : Command) : List String :=
  [helpUsage cmd] ++ helpDescLines cmd ++ helpArgLines cmd.signature ++
    ["", "Options:"] ++ helpOptLines cmd.signature

/-- `formatCommandHelp(cmd)`. -/
def formatCommandHelp (cmd : Command) : String :=
  String.intercalate "\n" (formatCommandHelpLines cmd)

-- # The command registry (Group, zet.group, register)

/-- A command group: its prefix (field `pfx` embeds the source's prefix
field), description, and name-keyed command map. -/
structure CmdGroup where
  pfx : String
  description : String
  commands : List (String × Command)
deriving DecidableEq, Repr

/-- `Group.register(signature)`: compile, reject a duplicate name in this
group, then store the new command (whose group reference is the prefix). -/
def groupRegister (g : CmdGroup) (signature : String) : Except String CmdGroup :=
  match parseSignature signature with
  | .error e => .error e
  | .ok parsed =>
    if hasKey g.commands parsed.name then
      .error ("Duplicate command '" ++ parsed.name ++ "' in group '" ++
        (if g.pfx = "" then "root" else g.pfx) ++ "'")
    else
      .ok { g with commands := g.commands ++
        [(parsed.name,
          { name := parsed.name, group := some g.pfx, description := "", signature := parsed })] }

/-- The module-level registry: the root group plus the prefix-keyed groups map. -/
structure Registry where
  root : CmdGroup
  groups : List (String × CmdGroup)
deriving DecidableEq, Repr

/-- The registry at module load: `rootGroup = new Group("", "Commands")`,
empty `groups` map. -/
def initRegistry : Registry :=
  { root := { pfx := "", description := "Commands", commands := [] }, groups := [] }

/-- `zet.group(prefix, description)`. -/
def zetGroup (st : Registry) (p d : String) : Except String Registry :=
  if p = "cli" then .error "The group prefix 'cli' is reserved"
  else if hasKey st.groups p then .error ("Group '" ++ p ++ "' already exists")
  else .ok { st with groups := st.groups ++ [(p, { pfx := p, description := d, commands := [] })] }

/-- `zet.register(signature)`: register on the root group. -/
def zetRegisterRoot (st : Registry) (signature : String) : Except String Registry :=
  match groupRegister st.root signature with
  | .error e => .error e
  | .ok g => .ok { st with root := g }

/-- Mutation of a registry group through the alias returned by `zet.group`. -/
def updateGroup (groups : List (String × CmdGroup)) (p : String) (g : CmdGroup) :
    List (String × CmdGroup) :=
  groups.map (fun e => if e.1 = p then (p, g) else e)

/-- One configuration-phase API call that changed the registry: a namespace
creation, a root registration, or a registration on an existing group. -/
inductive RegStep : Registry → Registry → Prop
  | newGroup {st st' : Registry} (p d : String) :
      zetGroup st p d = .ok st' → RegStep st st'
  | registerRoot {st st' : Registry} (sig : String) :
      zetRegisterRoot st sig = .ok st' → RegStep st st'
  | registerGrouped {st : Registry} (p : String) (g : CmdGroup) (sig : String) (g' : CmdGroup) :
      lookupKV st.groups p = some g →
      groupRegister g sig = .ok g' →
      RegStep st { st with groups := updateGroup st.groups p g' }

/-- Registry states reachable from module load by configuration calls. -/
inductive ReachableReg : Registry → Prop
  | init : ReachableReg initRegistry
  | step {s s' : Registry} : ReachableReg s → RegStep s s' → ReachableReg s'

/-- The command names of the root (default) namespace. -/
def rootNames (st : Registry) : List String := st.root.commands.map Prod.fst

/-- The registered namespace prefixes. -/
def groupPrefixes (st : Registry) : List String := st.groups.map Prod.fst

-- # Properties used by the theorems below

/-- A well-formed compiled option long name: `--` followed by the lowering
of a raw name that starts with a letter and continues with word characters
(letters, digits, underscores) or hyphens. -/
def okOptName (o : OptionSpec) : Prop :=
  ∃ c cs, isAsciiLetter c = true ∧ (∀ d ∈ cs, isWordOrHyphen d = true) ∧
    o.long = "--" ++ String.mk (lowerChars (c :: cs))

/-- The invariants the registry operations do maintain: namespace prefixes
are pairwise distinct and never the reserved `cli`, root command names are
pairwise distinct, and command names are pairwise distinct within each
group. -/
def goodReg (st : Registry) : Prop :=
  (groupPrefixes st).Nodup ∧ "cli" ∉ groupPrefixes st ∧
  (rootNames st).Nodup ∧ ∀ e ∈ st.groups, ((e.2).commands.map Prod.fst).Nodup

/-- A registry in which the root command `build` coexists with the
namespace prefix `build`. -/
def collideRegistry : Registry :=
  { root :=
      { pfx := "", description := "Commands",
        commands := [("build",
          { name := "build", group := some "", description := "",
            signature := { name := "build", args := [], options := [], acceptsRest := false } })] },
    groups := [("build", { pfx := "build", description := "Build tools", commands := [] })] }

/-- The compiled command of `"build \x7btarget\x7d"`. -/
def cmdBuildTarget : Command :=
  { name := "build", group := none, description := "",
    signature :=
      { name := "build",
        args := [{ name := "target", required := true, description := "" }],
        options := [], acceptsRest := false } }

/-- The compiled command of `"build \x7btoString\x7d"`: its single required
argument is named after an `Object.prototype` property. -/
def cmdBuildToString : Command :=
  { name := "build", group := none, description := "",
    signature :=
      { name := "build",
        args := [{ name := "toString", required := true, description := "" }],
        options := [], acceptsRest := false } }

/-- The compiled command of `"build \x7b--output=\x7d"`. -/
def cmdBuildOutput : Command :=
  { name := "build", group := none, description := "",
    signature :=
      { name := "build", args := [],
        options := [{ long := "--output", short := none, acceptsValue := true, description := "" }],
        acceptsRest := false } }

/-- The compiled command of `"build \x7b--Output=\x7d"` (short flag `-O`). -/
def cmdBuildOutputS : Command :=
  { name := "build", group := none, description := "",
    signature :=
      { name := "build", args := [],
        options := [{ long := "--output", short := some "-O", acceptsValue := true, description := "" }],
        acceptsRest := false } }

/-- The compiled command of `"build \x7btarget\x7d \x7b--output=\x7d"`. -/
def cmdBuildTargetOutput : Command :=
  { name := "build", group := none, description := "",
    signature :=
      { name := "build",
        args := [{ name := "target", required := true, description := "" }],
        options := [{ long := "--output", short := none, acceptsValue := true, description := "" }],
        acceptsRest := false } }

-- # Helper lemmas

theorem takeRun_fst_all (p : Char → Bool) :
    ∀ (l : List Char), ∀ c ∈ (takeRun p l).1, p c = true := by
  intro l
  induction l with
  | nil => simp [takeRun]
  | cons x xs ih =>
    intro c hc
    by_cases hx : p x
    · simp only [takeRun, hx, if_pos] at hc
      rcases List.mem_cons.mp hc with rfl | hc2
      · exact hx
      · exact ih c hc2
    · simp [takeRun, hx] at hc

theorem shortStep_foldl_eq :
    ∀ (segs : List (List Char)) (acc : List Char),
      segs.foldl shortStep acc = acc ++ segs.filterMap shortPick := by
  intro segs
  induction segs with
  | nil => intro acc; simp
  | cons s t ih =>
    intro acc
    cases s with
    | nil => simpa [shortStep, shortPick] using ih acc
    | cons c cs =>
      by_cases h : isUpperAZ c
      · simp [shortStep, shortPick, h, ih, List.filterMap_cons]
      · simp [shortStep, shortPick, h, ih, List.filterMap_cons]

theorem extractShortFlag_eq_spec (name : List Char) :
    extractShortFlag name = shortFlagSpec name := by
  unfold extractShortFlag shortFlagSpec
  rw [shortStep_foldl_eq]
  simp

theorem extractShortFlag_shape (name : List Char) (s : String)
    (h : extractShortFlag name = some s) :
    ∃ cs, cs ≠ [] ∧ s = String.mk ('-' :: cs) ∧ ∀ c ∈ cs, isUpperAZ c = true := by
  rw [extractShortFlag_eq_spec] at h
  unfold shortFlagSpec at h
  by_cases he : (splitDash name).filterMap shortPick = []
  · simp [he] at h
  · simp only [he, if_neg, if_false] at h
    refine ⟨(splitDash name).filterMap shortPick, he, (Option.some.injEq _ _).mp h |>.symm, ?_⟩
    intro c hc
    obtain ⟨seg, _, hpick⟩ := List.mem_filterMap.mp hc
    unfold shortPick at hpick
    cases seg with
    | nil => simp at hpick
    | cons d ds =>
      by_cases hd : isUpperAZ d
      · simp only [hd, if_pos, Option.some.injEq] at hpick
        exact hpick ▸ hd
      · simp [hd] at hpick

-- # The claims

/-- C3 counterexample: the first token of `"\x7bfoo\x7d"` is a braced group,
yet compilation does not fail — the braced token becomes the command name. -/
theorem parseSignature_braced_name_accepted :
    tokenize "{foo}".toList = [['{', 'f', 'o', 'o', '}']] ∧
    parseSignature "{foo}" = .ok ⟨"{foo}", [], [], false⟩ :=
  ⟨rfl, rfl⟩

/-- C3 (amended): signature compilation fails with `Empty signature` when
the source string is empty, but a braced first token is not rejected: it is
taken verbatim as the command name. -/
theorem parseSignature_empty_fails_braced_kept :
    parseSignature "" = .error "Empty signature" ∧
    parseSignature "{foo}" = .ok ⟨"{foo}", [], [], false⟩ :=
  ⟨rfl, rfl⟩

/-- C5: the compiled short flag is exactly the spec's derivation (split the
declared name on hyphens, collect the first character of each segment whose
first character is uppercase, prefix a hyphen when non-empty, null
otherwise); mid-segment uppercase is a compile error, so
`compile("x \x7b--fooBar\x7d")` fails while `compile("x \x7b--Foo-Bar=\x7d")`
succeeds with long name `--foo-bar`, short flag `-FB` and
`acceptsValue = true`. -/
theorem shortFlag_derivation_and_examples :
    (∀ name : List Char, extractShortFlag name = shortFlagSpec name) ∧
    parseSignature "x \x7b--fooBar\x7d" =
      .error "Invalid option name '--fooBar': uppercase letters are only allowed at the start of hyphen-separated segments" ∧
    parseSignature "x \x7b--Foo-Bar=\x7d" =
      .ok ⟨"x", [], [⟨"--foo-bar", some "-FB", true, ""⟩], false⟩ :=
  ⟨extractShortFlag_eq_spec, rfl, rfl⟩

/-- C7: for the signature compiled from `"build \x7b--output=\x7d"`, matching
`["--output=dist"]` and matching `["--output", "dist"]` produce structurally
equal successful results, both binding `--output` to `"dist"`. -/
theorem long_option_eq_vs_space_same_result :
    compileCmd "build \x7b--output=\x7d" = some cmdBuildOutput ∧
    parseArgv ["--output=dist"] cmdBuildOutput =
      .ok [] [("--output", OptVal.str "dist")] [] ∧
    parseArgv ["--output", "dist"] cmdBuildOutput =
      parseArgv ["--output=dist"] cmdBuildOutput := by
  refine ⟨?_, ?_, ?_⟩ <;> rfl

/-- C10: every derived short flag is a hyphen followed by a non-empty run of
uppercase letters — hence never `-h` — and the matcher short-circuits `-h`
(before a `--` stop marker) to help-requested for every command. -/
theorem shortFlag_uppercase_and_h_is_help :
    (∀ (name : List Char) (s : String), extractShortFlag name = some s →
      (∃ cs, cs ≠ [] ∧ s = String.mk ('-' :: cs) ∧ ∀ c ∈ cs, isUpperAZ c = true) ∧
      s ≠ "-h") ∧
    (∀ (cmd : Command) (tks : List String) (pidx : Nat)
      (args : List (String × String)) (opts : List (String × OptVal)) (rest : List String),
      parseArgvLoop cmd ("-h" :: tks) false pidx args opts rest = .help) := by
  constructor
  · intro name s h
    obtain ⟨cs, hne, hs, hup⟩ := extractShortFlag_shape name s h
    refine ⟨⟨cs, hne, hs, hup⟩, ?_⟩
    intro habs
    rw [habs] at hs
    have hdata : ('-' :: cs) = ['-', 'h'] := by
      have := congrArg String.toList hs
      simpa using this.symm
    have : cs = ['h'] := by simpa using hdata
    have := hup 'h' (by simp [this])
    simp [isUpperAZ] at this
  · intro cmd tks pidx args opts rest
    rfl

theorem strStartsWith_dashdash_ne_h {t : String} (h : strStartsWith t "--" = true) :
    t ≠ "-h" := by
  intro he
  rw [he] at h
  exact absurd h (by decide)

theorem strStartsWith_dashdash_false_ne {s : String} (h : strStartsWith s "--" = false) :
    s ≠ "--" ∧ s ≠ "--help" := by
  constructor <;> intro he <;> rw [he] at h <;> exact absurd h (by decide)

theorem classifyToken_long_value_noeq (cmd : Command) (o : OptionSpec) (t : String)
    (ho : o.acceptsValue = true)
    (h1 : strStartsWith t "--" = true) (h2 : t ≠ "--") (h3 : t ≠ "--help")
    (h4 : (splitFirstEq t).2 = none)
    (h5 : lookupLong cmd.signature.options ("--" ++ lowerStr (strDrop (splitFirstEq t).1 2)) = some o)
    (ahead : Option String) (pidx : Nat) (args : List (String × String))
    (opts : List (String × OptVal)) (rest : List String) :
    classifyToken cmd t ahead false pidx args opts rest =
      (match ahead with
       | some next =>
         if strStartsWith next "-" = true then
           .ret (.err ("option '" ++ o.long ++ "' requires a value") cmd)
         else .c2 (insertKV opts o.long (.str next))
       | none => .ret (.err ("option '" ++ o.long ++ "' requires a value") cmd)) := by
  have h2h : t ≠ "-h" := strStartsWith_dashdash_ne_h h1
  simp only [classifyToken, h1, h2, h3, h2h, h4, h5, ho, if_true, if_false, eq_self_iff_true,
    true_and, and_true, false_and, and_false, or_self, false_or, or_false, ite_true, ite_false,
    not_false_iff]

theorem classifyToken_long_value_eq (cmd : Command) (o : OptionSpec) (t v : String)
    (ho : o.acceptsValue = true)
    (h1 : strStartsWith t "--" = true) (h2 : t ≠ "--") (h3 : t ≠ "--help")
    (h4 : (splitFirstEq t).2 = some v)
    (h5 : lookupLong cmd.signature.options ("--" ++ lowerStr (strDrop (splitFirstEq t).1 2)) = some o)
    (ahead : Option String) (pidx : Nat) (args : List (String × String))
    (opts : List (String × OptVal)) (rest : List String) :
    classifyToken cmd t ahead false pidx args opts rest =
      .c1 false pidx args (insertKV opts o.long (.str v)) rest := by
  have h2h : t ≠ "-h" := strStartsWith_dashdash_ne_h h1
  simp only [classifyToken, h1, h2, h3, h2h, h4, h5, ho, if_true, if_false, eq_self_iff_true,
    true_and, and_true, false_and, and_false, or_self, false_or, or_false, ite_true, ite_false,
    not_false_iff]

theorem classifyToken_short_value (cmd : Command) (o : OptionSpec) (s : String)
    (ho : o.acceptsValue = true)
    (h1 : strStartsWith s "-" = true) (h2 : strLen s > 1)
    (h3 : strStartsWith s "--" = false) (h6 : s ≠ "-h")
    (h7 : lookupShort cmd.signature.options s = some o)
    (ahead : Option String) (pidx : Nat) (args : List (String × String))
    (opts : List (String × OptVal)) (rest : List String) :
    classifyToken cmd s ahead false pidx args opts rest =
      (match ahead with
       | some next => .c2 (insertKV opts o.long (.str next))
       | none => .ret (.err ("option '" ++ o.long ++ "' requires a value") cmd)) := by
  obtain ⟨h4, h5⟩ := strStartsWith_dashdash_false_ne h3
  simp only [classifyToken, h1, h2, h3, h4, h5, h6, h7, ho, if_true, if_false, eq_self_iff_true,
    true_and, and_true, false_and, and_false, or_self, false_or, or_false, ite_true, ite_false,
    not_false_iff, Bool.false_eq_true]

/-- C1: for a value-accepting option, the long form without `=value` binds
the lookahead only when it exists and does not start with `-` (failing with
a requires-a-value error otherwise), while the short form consumes the
lookahead unconditionally and fails only when there is no next token. -/
theorem parseArgv_long_lookahead_short_unconditional
    (cmd : Command) (o : OptionSpec) (ho : o.acceptsValue = true) :
    (∀ t : String, strStartsWith t "--" = true → t ≠ "--" → t ≠ "--help" →
      (splitFirstEq t).2 = none →
      lookupLong cmd.signature.options ("--" ++ lowerStr (strDrop (splitFirstEq t).1 2)) = some o →
      (∀ (next : String) (tks : List String) (pidx : Nat) (args : List (String × String))
          (opts : List (String × OptVal)) (rest : List String),
        parseArgvLoop cmd (t :: next :: tks) false pidx args opts rest =
          if strStartsWith next "-" = true then
            .err ("option '" ++ o.long ++ "' requires a value") cmd
          else parseArgvLoop cmd tks false pidx args (insertKV opts o.long (.str next)) rest) ∧
      (∀ (pidx : Nat) (args : List (String × String)) (opts : List (String × OptVal))
          (rest : List String),
        parseArgvLoop cmd [t] false pidx args opts rest =
          .err ("option '" ++ o.long ++ "' requires a value") cmd)) ∧
    (∀ s : String, strStartsWith s "-" = true → strLen s > 1 →
      strStartsWith s "--" = false → s ≠ "-h" →
      lookupShort cmd.signature.options s = some o →
      (∀ (next : String) (tks : List String) (pidx : Nat) (args : List (String × String))
          (opts : List (String × OptVal)) (rest : List String),
        parseArgvLoop cmd (s :: next :: tks) false pidx args opts rest =
          parseArgvLoop cmd tks false pidx args (insertKV opts o.long (.str next)) rest) ∧
      (∀ (pidx : Nat) (args : List (String × String)) (opts : List (String × OptVal))
          (rest : List String),
        parseArgvLoop cmd [s] false pidx args opts rest =
          .err ("option '" ++ o.long ++ "' requires a value") cmd)) := by
  constructor
  · intro t h1 h2 h3 h4 h5
    constructor
    · intro next tks pidx args opts rest
      rw [parseArgvLoop]
      rw [show ((next :: tks).head? : Option String) = some next from rfl]
      rw [classifyToken_long_value_noeq cmd o t ho h1 h2 h3 h4 h5]
      by_cases hn : strStartsWith next "-" = true
      · simp [hn]
      · simp [hn]
    · intro pidx args opts rest
      rw [parseArgvLoop]
      rw [show (([] : List String).head? : Option String) = none from rfl]
      rw [classifyToken_long_value_noeq cmd o t ho h1 h2 h3 h4 h5]
  · intro s h1 h2 h3 h6 h7
    constructor
    · intro next tks pidx args opts rest
      rw [parseArgvLoop]
      rw [show ((next :: tks).head? : Option String) = some next from rfl]
      rw [classifyToken_short_value cmd o s ho h1 h2 h3 h6 h7]
    · intro pidx args opts rest
      rw [parseArgvLoop]
      rw [show (([] : List String).head? : Option String) = none from rfl]
      rw [classifyToken_short_value cmd o s ho h1 h2 h3 h6 h7]

/-- C1 witness: the behaviour at the compiled signatures of
`"build \x7b--output=\x7d"` and `"build \x7b--Output=\x7d"`, on the concrete
inputs of the spec's examples. -/
theorem parseArgv_long_lookahead_short_unconditional_witness :
    parseArgvLoop cmdBuildOutput ["--output", "dist"] false 0 [] [] [] =
      parseArgvLoop cmdBuildOutput [] false 0 [] [("--output", OptVal.str "dist")] [] ∧
    parseArgvLoop cmdBuildOutput ["--output", "-x"] false 0 [] [] [] =
      .err "option '--output' requires a value" cmdBuildOutput ∧
    parseArgvLoop cmdBuildOutput ["--output"] false 0 [] [] [] =
      .err "option '--output' requires a value" cmdBuildOutput ∧
    parseArgvLoop cmdBuildOutputS ["-O", "-x"] false 0 [] [] [] =
      parseArgvLoop cmdBuildOutputS [] false 0 [] [("--output", OptVal.str "-x")] [] ∧
    parseArgvLoop cmdBuildOutputS ["-O"] false 0 [] [] [] =
      .err "option '--output' requires a value" cmdBuildOutputS := by
  have hl := (parseArgv_long_lookahead_short_unconditional cmdBuildOutput
    ⟨"--output", none, true, ""⟩ rfl).1 "--output" (by decide) (by decide) (by decide)
    (by decide) (by decide)
  have hs := (parseArgv_long_lookahead_short_unconditional cmdBuildOutputS
    ⟨"--output", some "-O", true, ""⟩ rfl).2 "-O" (by decide) (by decide) (by decide)
    (by decide) (by decide)
  refine ⟨?_, ?_, ?_, ?_, ?_⟩
  · simpa using hl.1 "dist" [] 0 [] [] []
  · simpa using hl.1 "-x" [] 0 [] [] []
  · simpa using hl.2 0 [] [] []
  · simpa using hs.1 "-x" [] 0 [] [] []
  · simpa using hs.2 0 [] [] []

/-- C6 counterexample: `"build \x7btoString\x7d"` compiles to a required
argument named `toString`, which has no binding in the empty argument map,
yet the match succeeds: the JS `in` test of the post-scan finds `toString`
on `Object.prototype`, so the missing-required-argument error is skipped. -/
theorem missing_required_prototype_key_skipped :
    compileCmd "build \x7btoString\x7d" = some cmdBuildToString ∧
    (∃ a ∈ cmdBuildToString.signature.args, a.required = true ∧
      hasKey ([] : List (String × String)) a.name = false) ∧
    parseArgv [] cmdBuildToString = .ok [] [] [] :=
  ⟨rfl, ⟨⟨"toString", true, ""⟩, by decide, rfl, rfl⟩, rfl⟩

/-- C6 (amended): once the scan is exhausted, whenever some declared
required argument's name is unbound under the JS `in` test — no own key in
the argument map and not an `Object.prototype` property name — the matcher
fails with `missing required argument '<name>'` and the error carries the
originating command (a required argument named after a prototype property,
such as `toString`, is silently treated as bound); in particular
`match([], compile("build \x7btarget\x7d"))` fails exactly so. -/
theorem missing_required_argument_error :
    (∀ (cmd : Command) (stop : Bool) (pidx : Nat) (args : List (String × String))
        (opts : List (String × OptVal)) (rest : List String),
      (∃ a ∈ cmd.signature.args, a.required = true ∧ jsIn args a.name = false) →
      ∃ a ∈ cmd.signature.args, a.required = true ∧ jsIn args a.name = false ∧
        parseArgvLoop cmd [] stop pidx args opts rest =
          .err ("missing required argument '" ++ a.name ++ "'") cmd) ∧
    compileCmd "build {target}" = some cmdBuildTarget ∧
    parseArgv [] cmdBuildTarget = .err "missing required argument 'target'" cmdBuildTarget := by
  refine ⟨?_, rfl, rfl⟩
  intro cmd stop pidx args opts rest hex
  obtain ⟨a0, ha0, hr0, hk0⟩ := hex
  have hsome : (cmd.signature.args.find? (fun a => a.required && !jsIn args a.name)).isSome := by
    rw [List.find?_isSome]
    exact ⟨a0, ha0, by simp [hr0, hk0]⟩
  obtain ⟨a, hfa⟩ := Option.isSome_iff_exists.mp hsome
  have hp := List.find?_some hfa
  have hmem := List.mem_of_find?_eq_some hfa
  have hp2 : a.required = true ∧ jsIn args a.name = false := by
    constructor
    · exact Bool.and_elim_left hp
    · simpa using Bool.and_elim_right hp
  refine ⟨a, hmem, hp2.1, hp2.2, ?_⟩
  show postScan cmd args opts rest = _
  unfold postScan
  rw [hfa]

/-- C6 witness: the post-scan failure at the compiled
`"build \x7btarget\x7d"` command with an empty binding map (`target` is
neither an own key nor a prototype property). -/
theorem missing_required_argument_error_witness :
    ∃ a ∈ cmdBuildTarget.signature.args, a.required = true ∧
      jsIn ([] : List (String × String)) a.name = false ∧
      parseArgvLoop cmdBuildTarget [] false 0 [] [] [] =
        .err ("missing required argument '" ++ a.name ++ "'") cmdBuildTarget :=
  missing_required_argument_error.1 cmdBuildTarget false 0 [] [] []
    ⟨⟨"target", true, ""⟩, by decide, rfl, rfl⟩

/-- C9 counterexample: `"build \x7btarget\x7d \x7b--output=\x7d"` declares the
value-accepting option `--output`, yet matching the single token
`--output=` does not succeed — the required argument is missing. -/
theorem empty_value_not_always_success :
    compileCmd "build \x7btarget\x7d \x7b--output=\x7d" = some cmdBuildTargetOutput ∧
    (∃ o ∈ cmdBuildTargetOutput.signature.options, o.long = "--output" ∧ o.acceptsValue = true) ∧
    parseArgv ["--output="] cmdBuildTargetOutput =
      .err "missing required argument 'target'" cmdBuildTargetOutput :=
  ⟨rfl, ⟨⟨"--output", none, true, ""⟩, by decide, rfl, rfl⟩, rfl⟩

/-- C9 (amended): a value-accepting long option addressed as `--name=`
(equals sign with nothing after it) always binds the empty string rather
than failing with a requires-a-value error; the whole match succeeds with
that binding whenever no required argument is left unbound (in particular
when the signature declares no required arguments). -/
theorem empty_value_binds_empty_string :
    ∀ (cmd : Command) (o : OptionSpec) (t : String),
      o.acceptsValue = true →
      strStartsWith t "--" = true →
      (splitFirstEq t).2 = some "" →
      lookupLong cmd.signature.options ("--" ++ lowerStr (strDrop (splitFirstEq t).1 2)) = some o →
      (∀ (tks : List String) (pidx : Nat) (args : List (String × String))
          (opts : List (String × OptVal)) (rest : List String),
        parseArgvLoop cmd (t :: tks) false pidx args opts rest =
          parseArgvLoop cmd tks false pidx args (insertKV opts o.long (.str "")) rest) ∧
      ((∀ a ∈ cmd.signature.args, a.required = false) →
        parseArgv [t] cmd = .ok [] [(o.long, OptVal.str "")] []) := by
  intro cmd o t ho h1 h4 h5
  have h2 : t ≠ "--" := by
    intro he; rw [he] at h4; exact absurd h4 (by decide)
  have h3 : t ≠ "--help" := by
    intro he; rw [he] at h4; exact absurd h4 (by decide)
  have hstep : ∀ (ahead : Option String) (pidx : Nat) (args : List (String × String))
      (opts : List (String × OptVal)) (rest : List String),
      classifyToken cmd t ahead false pidx args opts rest =
        .c1 false pidx args (insertKV opts o.long (.str "")) rest :=
    fun ahead pidx args opts rest =>
      classifyToken_long_value_eq cmd o t "" ho h1 h2 h3 h4 h5 ahead pidx args opts rest
  constructor
  · intro tks pidx args opts rest
    rw [parseArgvLoop, hstep]
  · intro hreq
    have hone : parseArgv [t] cmd =
        postScan cmd [] (insertKV [] o.long (.str "")) [] := by
      show parseArgvLoop cmd [t] false 0 [] [] [] = _
      rw [parseArgvLoop, hstep]
      rfl
    rw [hone]
    unfold postScan
    rw [List.find?_eq_none.mpr ?hnone]
    case hnone =>
      intro a ha
      simp [hreq a ha]
    simp [insertKV]

/-- C9 witness: for the compiled `"build \x7b--output=\x7d"` command, the
token `--output=` alone yields a successful match binding the empty
string. -/
theorem empty_value_binds_empty_string_witness :
    parseArgv ["--output="] cmdBuildOutput = .ok [] [("--output", OptVal.str "")] [] :=
  (empty_value_binds_empty_string cmdBuildOutput ⟨"--output", none, true, ""⟩ "--output="
    rfl (by decide) (by decide) (by decide)).2 (by decide)

/-- C10 witness: the short flag derived from `Foo-Bar` is `-FB` (uppercase
letters after a hyphen, and not `-h`), and `-h` on a concrete command
short-circuits to help. -/
theorem shortFlag_uppercase_and_h_is_help_witness :
    ((∃ cs, cs ≠ [] ∧ "-FB" = String.mk ('-' :: cs) ∧ ∀ c ∈ cs, isUpperAZ c = true) ∧
      "-FB" ≠ "-h") ∧
    parseArgvLoop cmdBuildTarget ["-h"] false 0 [] [] [] = .help :=
  ⟨shortFlag_uppercase_and_h_is_help.1 ("Foo-Bar".toList) "-FB" (by decide),
   shortFlag_uppercase_and_h_is_help.2 cmdBuildTarget [] 0 [] [] []⟩

theorem parseOptionCore_shape (tok nameRest : List Char) (o : OptionSpec)
    (h : parseOptionCore tok nameRest = .ok o) : okOptName o := by
  unfold parseOptionCore at h
  cases nameRest with
  | nil => cases h
  | cons c cs =>
    by_cases hl : isAsciiLetter c = true
    · simp only [hl, if_true, ite_true] at h
      cases hv : validateOptionName (c :: (takeRun isWordOrHyphen cs).1) with
      | error e => rw [hv] at h; cases h
      | ok u =>
        rw [hv] at h
        injection h with h2
        refine ⟨c, (takeRun isWordOrHyphen cs).1, hl, ?_, ?_⟩
        · exact fun d hd => takeRun_fst_all _ cs d hd
        · rw [← h2]
    · simp only [hl, if_false, ite_false, Bool.false_eq_true] at h
      cases h

theorem parseOptionFromTok_shape (tok inner : List Char) (o : OptionSpec)
    (h : parseOptionFromTok tok inner = .ok o) : okOptName o := by
  unfold parseOptionFromTok at h
  by_cases hs : startsDashDash inner = true
  · rw [if_pos hs] at h
    exact parseOptionCore_shape _ _ _ h
  · rw [if_neg hs] at h
    cases h

theorem processTokens_opts_shape :
    ∀ (toks : List (List Char)) (args : List ArgSpec) (options : List OptionSpec)
      (ar so : Bool) (res : List ArgSpec × List OptionSpec × Bool),
      processTokens toks args options ar so = .ok res →
      (∀ o ∈ options, okOptName o) → ∀ o ∈ res.2.1, okOptName o := by
  intro toks
  induction toks with
  | nil =>
    intro args options ar so res h hopts
    rw [processTokens] at h
    cases h
    exact hopts
  | cons tok rest ih =>
    intro args options ar so res h hopts
    rw [processTokens] at h
    by_cases h1 : tok = ['.', '.', '.']
    · rw [if_pos h1] at h
      exact ih _ _ _ _ _ h hopts
    · rw [if_neg h1] at h
      by_cases h2 : tok.head? = some '{' ∧ tok.getLast? = some '}'
      · rw [if_pos h2] at h
        by_cases h3 : startsDashDash (trimChars ((tok.drop 1).dropLast)) = true
        · rw [if_pos h3] at h
          cases heq : parseOptionFromTok tok (trimChars ((tok.drop 1).dropLast)) with
          | error e => rw [heq] at h; cases h
          | ok o2 =>
            rw [heq] at h
            refine ih _ _ _ _ _ h ?_
            intro o ho
            rcases List.mem_append.mp ho with h4 | h4
            · exact hopts o h4
            · rw [List.mem_singleton] at h4
              subst h4
              exact parseOptionFromTok_shape _ _ _ heq
        · rw [if_neg h3] at h
          cases heq : parseArgFromTok tok (trimChars ((tok.drop 1).dropLast)) with
          | error e => rw [heq] at h; cases h
          | ok trip =>
            rw [heq] at h
            have h5 : (if ¬trip.2.1 = true ∧ so = true then
                (Except.error ("Required argument '" ++ trip.1 ++
                  "' cannot follow an optional argument") :
                  Except String (List ArgSpec × List OptionSpec × Bool))
              else
                processTokens rest
                  (args ++ [{ name := trip.1, required := !trip.2.1, description := trip.2.2 }])
                  options ar (so || trip.2.1)) = Except.ok res := h
            by_cases h4 : ¬trip.2.1 = true ∧ so = true
            · rw [if_pos h4] at h5
              cases h5
            · rw [if_neg h4] at h5
              exact ih _ _ _ _ _ h5 hopts
      · rw [if_neg h2] at h
        cases h

theorem parseSignature_opts_shape (src : String) (sig : Signature)
    (h : parseSignature src = .ok sig) : ∀ o ∈ sig.options, okOptName o := by
  unfold parseSignature at h
  split at h
  · cases h
  · split at h
    · cases h
    · next args options acceptsRest heq =>
      split at h
      · cases h
      · split at h
        · cases h
        · cases h
          exact processTokens_opts_shape _ _ _ _ _ _ heq
            (fun o ho => absurd ho (List.not_mem_nil o))

/-- C4 counterexample: the option-name pattern uses word characters, so an
underscore is accepted — `compile("x \x7b--foo_bar\x7d")` succeeds instead of
failing with a SignatureError. -/
theorem option_underscore_accepted :
    parseSignature "x \x7b--foo_bar\x7d" =
      .ok ⟨"x", [], [⟨"--foo_bar", none, false, ""⟩], false⟩ := rfl

/-- C4 (amended): every compiled option's long name is `--` followed by the
lowering of a raw name that starts with a letter and continues with word
characters (letters, digits, underscores) or hyphens — underscore is
accepted, as `compile("x \x7b--foo_bar\x7d")` shows — and a braced `--` token
in which no letter follows `--` fails with a SignatureError, as
`compile("x \x7b--1foo\x7d")` shows. -/
theorem option_name_charset :
    (∀ (src : String) (sig : Signature), parseSignature src = .ok sig →
      ∀ o ∈ sig.options, okOptName o) ∧
    parseSignature "x \x7b--foo_bar\x7d" =
      .ok ⟨"x", [], [⟨"--foo_bar", none, false, ""⟩], false⟩ ∧
    parseSignature "x \x7b--1foo\x7d" = .error "Invalid option syntax: \x7b--1foo\x7d" :=
  ⟨fun src sig h => parseSignature_opts_shape src sig h, rfl, rfl⟩

/-- C4 witness: the charset property instantiated at the compiled
`"x \x7b--foo_bar\x7d"` signature's only option. -/
theorem option_name_charset_witness :
    okOptName ⟨"--foo_bar", none, false, ""⟩ :=
  option_name_charset.1 "x \x7b--foo_bar\x7d" ⟨"x", [], [⟨"--foo_bar", none, false, ""⟩], false⟩ rfl
    ⟨"--foo_bar", none, false, ""⟩ (by decide)

/-- C8: for every command, the rendered help lines contain a line starting
with each declared argument name and each declared option long name (after
the two-space indent), and the final line is the synthesized `--help, -h`
entry that always ends the Options block. -/
theorem formatCommandHelp_contains_all_names (cmd : Command) :
    (∀ a ∈ cmd.signature.args, ∃ s, ("  " ++ a.name ++ s) ∈ formatCommandHelpLines cmd) ∧
    (∀ o ∈ cmd.signature.options, ∃ s, ("  " ++ o.long ++ s) ∈ formatCommandHelpLines cmd) ∧
    (∃ s, (formatCommandHelpLines cmd).getLast? = some ("  --help, -h" ++ s)) := by
  refine ⟨?_, ?_, ?_⟩
  · intro a ha
    have hlen : cmd.signature.args.length > 0 :=
      List.length_pos.mpr (List.ne_nil_of_mem ha)
    have hmem : argLine (argNameWidth cmd.signature) a ∈ helpArgLines cmd.signature := by
      unfold helpArgLines
      rw [if_pos hlen]
      exact List.mem_append_right _ (List.mem_map_of_mem _ ha)
    refine ⟨padTo (argNameWidth cmd.signature) a.name.length ++ (a.description ++
      (if a.required then " (required)" else "")), ?_⟩
    unfold formatCommandHelpLines
    exact List.mem_append_left _ (List.mem_append_left _ (List.mem_append_right _ hmem))
  · intro o ho
    have hentry : (optionLabel o, o.description) ∈ helpOptEntries cmd.signature := by
      unfold helpOptEntries
      exact List.mem_append_left _ (List.mem_map_of_mem _ ho)
    have hmem : optLine (optEntriesWidth (helpOptEntries cmd.signature))
        (optionLabel o, o.description) ∈ helpOptLines cmd.signature := by
      unfold helpOptLines
      exact List.mem_map_of_mem _ hentry
    refine ⟨optionLabelTail o ++ (padTo (optEntriesWidth (helpOptEntries cmd.signature))
      (optionLabel o).length ++ o.description), ?_⟩
    have hshape : "  " ++ o.long ++ (optionLabelTail o ++
        (padTo (optEntriesWidth (helpOptEntries cmd.signature)) (optionLabel o).length ++
          o.description)) =
        optLine (optEntriesWidth (helpOptEntries cmd.signature)) (optionLabel o, o.description) := by
      unfold optLine optionLabel
      simp [String.append_assoc]
    rw [hshape]
    unfold formatCommandHelpLines
    exact List.mem_append_right _ hmem
  · have hsplit : helpOptLines cmd.signature =
        (cmd.signature.options.map (fun o => (optionLabel o, o.description))).map
          (optLine (optEntriesWidth (helpOptEntries cmd.signature))) ++
        [optLine (optEntriesWidth (helpOptEntries cmd.signature)) ("--help, -h", "Show help")] := by
      unfold helpOptLines
      conv_lhs => rw [show helpOptEntries cmd.signature =
        cmd.signature.options.map (fun o => (optionLabel o, o.description)) ++
          [("--help, -h", "Show help")] from rfl]
      rw [List.map_append]
      rfl
    refine ⟨padTo (optEntriesWidth (helpOptEntries cmd.signature)) ("--help, -h".length) ++
      "Show help", ?_⟩
    unfold formatCommandHelpLines
    rw [List.getLast?_append_of_ne_nil _ (by rw [hsplit]; simp)]
    rw [hsplit, List.getLast?_concat]
    rfl

/-- C8 witness: the help lines of the compiled
`"build \x7btarget\x7d \x7b--output=\x7d"` command contain its argument and
option names and end with the `--help, -h` entry. -/
theorem formatCommandHelp_contains_all_names_witness :
    (∃ s, ("  " ++ "target" ++ s) ∈ formatCommandHelpLines cmdBuildTargetOutput) ∧
    (∃ s, ("  " ++ "--output" ++ s) ∈ formatCommandHelpLines cmdBuildTargetOutput) ∧
    (∃ s, (formatCommandHelpLines cmdBuildTargetOutput).getLast? = some ("  --help, -h" ++ s)) :=
  ⟨(formatCommandHelp_contains_all_names cmdBuildTargetOutput).1 ⟨"target", true, ""⟩ (by decide),
   (formatCommandHelp_contains_all_names cmdBuildTargetOutput).2.1 ⟨"--output", none, true, ""⟩
     (by decide),
   (formatCommandHelp_contains_all_names cmdBuildTargetOutput).2.2⟩

theorem hasKey_false_not_mem {β : Type} (l : List (String × β)) (k : String)
    (h : hasKey l k = false) : k ∉ l.map Prod.fst := by
  unfold hasKey at h
  rw [List.any_eq_false] at h
  intro hk
  obtain ⟨e, he, hfst⟩ := List.mem_map.mp hk
  have := h e he
  simp [hfst] at this

theorem zetGroup_ok_inv (st : Registry) (p d : String) (st' : Registry)
    (h : zetGroup st p d = .ok st') :
    p ≠ "cli" ∧ hasKey st.groups p = false ∧
      st' = { st with groups := st.groups ++ [(p, ⟨p, d, []⟩)] } := by
  unfold zetGroup at h
  by_cases h1 : p = "cli"
  · rw [if_pos h1] at h
    cases h
  · rw [if_neg h1] at h
    by_cases h2 : hasKey st.groups p = true
    · rw [if_pos h2] at h
      cases h
    · rw [if_neg h2] at h
      injection h with h3
      exact ⟨h1, by simpa using h2, h3.symm⟩

theorem groupRegister_ok_inv (g : CmdGroup) (sig : String) (g' : CmdGroup)
    (h : groupRegister g sig = .ok g') :
    ∃ parsed, parseSignature sig = .ok parsed ∧ hasKey g.commands parsed.name = false ∧
      g' = { g with commands := g.commands ++
        [(parsed.name,
          { name := parsed.name, group := some g.pfx, description := "",
            signature := parsed })] } := by
  unfold groupRegister at h
  cases hp : parseSignature sig with
  | error e =>
    rw [hp] at h
    cases h
  | ok parsed =>
    rw [hp] at h
    have h4 : (if hasKey g.commands parsed.name = true then
        (Except.error ("Duplicate command '" ++ parsed.name ++ "' in group '" ++
          (if g.pfx = "" then "root" else g.pfx) ++ "'") : Except String CmdGroup)
      else
        .ok { g with commands := g.commands ++
          [(parsed.name,
            { name := parsed.name, group := some g.pfx, description := "",
              signature := parsed })] }) = Except.ok g' := h
    by_cases h2 : hasKey g.commands parsed.name = true
    · rw [if_pos h2] at h4
      cases h4
    · rw [if_neg h2] at h4
      injection h4 with h3
      exact ⟨parsed, rfl, by simpa using h2, h3.symm⟩

theorem zetRegisterRoot_ok_inv (st : Registry) (sig : String) (st' : Registry)
    (h : zetRegisterRoot st sig = .ok st') :
    ∃ g, groupRegister st.root sig = .ok g ∧ st' = { st with root := g } := by
  unfold zetRegisterRoot at h
  cases hg : groupRegister st.root sig with
  | error e =>
    rw [hg] at h
    cases h
  | ok g =>
    rw [hg] at h
    injection h with h3
    exact ⟨g, rfl, h3.symm⟩

theorem updateGroup_map_fst (groups : List (String × CmdGroup)) (p : String) (g : CmdGroup) :
    (updateGroup groups p g).map Prod.fst = groups.map Prod.fst := by
  unfold updateGroup
  rw [List.map_map]
  refine List.map_congr_left ?_
  intro e _
  by_cases h : e.1 = p <;> simp [h]

theorem updateGroup_mem (groups : List (String × CmdGroup)) (p : String) (g : CmdGroup)
    (e' : String × CmdGroup) (h : e' ∈ updateGroup groups p g) :
    e' = (p, g) ∨ e' ∈ groups := by
  unfold updateGroup at h
  obtain ⟨e, he, hupd⟩ := List.mem_map.mp h
  by_cases hc : e.1 = p
  · rw [if_pos hc] at hupd
    exact Or.inl hupd.symm
  · rw [if_neg hc] at hupd
    exact Or.inr (hupd ▸ he)

theorem nodup_append_single {α : Type} (l : List α) (x : α) (h1 : l.Nodup) (h2 : x ∉ l) :
    (l ++ [x]).Nodup := by
  rw [List.nodup_append]
  refine ⟨h1, List.nodup_singleton x, ?_⟩
  intro a ha hb
  rw [List.mem_singleton] at hb
  subst hb
  exact h2 ha

theorem lookupKV_mem {β : Type} (l : List (String × β)) (k : String) (v : β)
    (h : lookupKV l k = some v) : ∃ e ∈ l, e.2 = v := by
  unfold lookupKV at h
  cases hf : l.find? (fun p => p.1 = k) with
  | none => rw [hf] at h; cases h
  | some e =>
    rw [hf] at h
    injection h with h2
    exact ⟨e, List.mem_of_find?_eq_some hf, h2⟩

/-- C2 (amended): every reachable registry state keeps namespace prefixes
pairwise distinct and never equal to the reserved `cli`, root command names
pairwise distinct, and command names pairwise distinct within each group —
but nothing prevents a root command name from equalling a namespace
prefix. -/
theorem registry_invariants : ∀ st, ReachableReg st → goodReg st := by
  intro st h
  induction h with
  | init =>
    refine ⟨List.nodup_nil, ?_, List.nodup_nil, ?_⟩
    · intro hc
      simp [initRegistry, groupPrefixes] at hc
    · intro e he
      simp [initRegistry] at he
  | @step s s2 _ hstep ih =>
    obtain ⟨hnodupP, hcli, hnodupR, hgroups⟩ := ih
    cases hstep with
    | newGroup p d hok =>
      obtain ⟨hp1, hp2, hp3⟩ := zetGroup_ok_inv s p d s2 hok
      subst hp3
      refine ⟨?_, ?_, hnodupR, ?_⟩
      · show ((s.groups ++ [(p, (⟨p, d, []⟩ : CmdGroup))]).map Prod.fst).Nodup
        rw [List.map_append]
        exact nodup_append_single _ _ hnodupP (hasKey_false_not_mem _ _ hp2)
      · show "cli" ∉ (s.groups ++ [(p, (⟨p, d, []⟩ : CmdGroup))]).map Prod.fst
        rw [List.map_append]
        intro hc
        rcases List.mem_append.mp hc with hx | hx
        · exact hcli hx
        · rw [show ([(p, (⟨p, d, []⟩ : CmdGroup))].map Prod.fst) = [p] from rfl,
            List.mem_singleton] at hx
          exact hp1 hx.symm
      · intro e he
        rcases List.mem_append.mp he with hx | hx
        · exact hgroups e hx
        · rw [List.mem_singleton] at hx
          subst hx
          exact List.nodup_nil
    | registerRoot sig hok =>
      obtain ⟨g, hg, hst⟩ := zetRegisterRoot_ok_inv s sig s2 hok
      obtain ⟨parsed, _, hk, hgdef⟩ := groupRegister_ok_inv _ _ _ hg
      subst hst
      subst hgdef
      refine ⟨hnodupP, hcli, ?_, hgroups⟩
      show ((s.root.commands ++ [_]).map Prod.fst).Nodup
      rw [List.map_append]
      exact nodup_append_single _ _ hnodupR (hasKey_false_not_mem _ _ hk)
    | registerGrouped p g sig g' hfind hreg =>
      obtain ⟨parsed, _, hk, hgdef⟩ := groupRegister_ok_inv _ _ _ hreg
      refine ⟨?_, ?_, hnodupR, ?_⟩
      · show ((updateGroup s.groups p g').map Prod.fst).Nodup
        rw [updateGroup_map_fst]
        exact hnodupP
      · show "cli" ∉ (updateGroup s.groups p g').map Prod.fst
        rw [updateGroup_map_fst]
        exact hcli
      · intro e he
        rcases updateGroup_mem _ _ _ _ he with hx | hx
        · subst hx
          show ((g'.commands).map Prod.fst).Nodup
          rw [hgdef]
          show ((g.commands ++ [_]).map Prod.fst).Nodup
          rw [List.map_append]
          obtain ⟨eg, hegmem, heg2⟩ := lookupKV_mem _ _ _ hfind
          have hgn : ((g.commands).map Prod.fst).Nodup := heg2 ▸ hgroups eg hegmem
          exact nodup_append_single _ _ hgn (hasKey_false_not_mem _ _ hk)
        · exact hgroups e hx

/-- C2 counterexample: creating the namespace `build` and then registering
the root command `build` are both accepted, reaching a registry state in
which a root command name equals a namespace prefix. -/
theorem root_command_group_collision :
    ¬(∀ st, ReachableReg st → ∀ n ∈ rootNames st, n ∉ groupPrefixes st) := by
  intro hcl
  have h1 : RegStep initRegistry
      { root := { pfx := "", description := "Commands", commands := [] },
        groups := [("build", { pfx := "build", description := "Build tools", commands := [] })] } :=
    RegStep.newGroup "build" "Build tools" rfl
  have h2 : RegStep
      { root := { pfx := "", description := "Commands", commands := [] },
        groups := [("build", { pfx := "build", description := "Build tools", commands := [] })] }
      collideRegistry :=
    RegStep.registerRoot "build" rfl
  have hr : ReachableReg collideRegistry :=
    ReachableReg.step (ReachableReg.step ReachableReg.init h1) h2
  exact hcl collideRegistry hr "build" (by decide) (by decide)

/-- C2 witness: the maintained invariants instantiated at the reachable
collision state. -/
theorem registry_invariants_witness : goodReg collideRegistry :=
  registry_invariants collideRegistry
    (ReachableReg.step
      (ReachableReg.step ReachableReg.init
        (@RegStep.newGroup initRegistry
          { root := { pfx := "", description := "Commands", commands := [] },
            groups := [("build", { pfx := "build", description := "Build tools", commands := [] })] }
          "build" "Build tools" rfl))
      (RegStep.registerRoot "build" rfl))
